import Mathlib

/-!
# car_ai_backend: accident image analysis gateway

A shallow embedding of `src/app.js` and `src/src/controller/user_controller.js`.

Text is modelled as `List Char`.  The two regular expressions of the source
are written as regular-expression syntax trees and run by a backtracking
matcher that follows the continuation semantics of ECMA-262 (pattern
matchers take a match state and a continuation).
-/

namespace CarAI

/-- JavaScript strings, modelled as lists of characters. -/
abbrev Str := List Char

/-! ## Regular expressions (the fragment the two source patterns use) -/

/-- Syntax of the regular expressions occurring in the source. -/
inductive Regex where
  /-- a pattern character, such as `i` or the escaped `\/` and `\{` -/
  | char (c : Char)
  /-- a character class, given by its membership test -/
  | cls (p : Char → Bool)
  /-- the empty pattern -/
  | empty
  /-- concatenation of two terms -/
  | seq (a b : Regex)
  /-- disjunction `a|b`, left alternative first -/
  | alt (a b : Regex)
  /-- greedy `*` quantifier -/
  | star (a : Regex)
  /-- assertion `^` (no multiline flag) -/
  | bol
  /-- assertion `$` (no multiline flag) -/
  | eol

/-- A match state: the index reached in the input and the input that remains
from that index on. -/
structure MatchState where
  endIndex : Nat
  rest : Str

/-- The greedy repetition of ECMA-262 RepeatMatcher with min 0 and max ∞: try
one more iteration of the atom, refusing an iteration that consumed nothing,
and fall back to the continuation.  The first argument bounds the number of
iterations; `Regex.run` passes the number of characters that remain. -/
def repeatMatcher (atom : MatchState → (MatchState → Option MatchState) → Option MatchState) :
    Nat → MatchState → (MatchState → Option MatchState) → Option MatchState
  | 0, x, k => k x
  | n + 1, x, k =>
    match atom x (fun y => if y.endIndex = x.endIndex then none else repeatMatcher atom n y k) with
    | some z => some z
    | none => k x

/-- The matcher of a pattern: run from state `x`, calling the continuation `k`
on every state the pattern can end in, in backtracking priority order, and
return the first success. -/
def Regex.run : Regex → MatchState → (MatchState → Option MatchState) → Option MatchState
  | .char c, x, k =>
    match x.rest with
    | [] => none
    | d :: t => if d = c then k ⟨x.endIndex + 1, t⟩ else none
  | .cls p, x, k =>
    match x.rest with
    | [] => none
    | d :: t => if p d then k ⟨x.endIndex + 1, t⟩ else none
  | .empty, x, k => k x
  | .seq a b, x, k => a.run x (fun y => b.run y k)
  | .alt a b, x, k =>
    match a.run x k with
    | some z => some z
    | none => b.run x k
  | .star a, x, k => repeatMatcher a.run x.rest.length x k
  | .bol, x, k => if x.endIndex = 0 then k x else none
  | .eol, x, k => if x.rest = [] then k x else none

/-- The search loop of RegExpBuiltinExec for a pattern without the global and
sticky flags: try the matcher at index `i`, then at `i + 1`, and so on up to the
end of the input.  Returns the matched substring (element 0 of the match
array) or `none` (JavaScript `null`). -/
def execFrom (r : Regex) : Nat → Str → Option Str
  | i, [] =>
    match r.run ⟨i, []⟩ some with
    | some y => some (([] : Str).take (y.endIndex - i))
    | none => none
  | i, c :: t =>
    match r.run ⟨i, c :: t⟩ some with
    | some y => some ((c :: t).take (y.endIndex - i))
    | none => execFrom r (i + 1) t

/-- `String.prototype.match` with a non-global pattern: element 0 of the
result, or `none` when the result is `null`. -/
def strMatch (s : Str) (r : Regex) : Option Str := execFrom r 0 s

/-- A pattern for a run of literal characters. -/
def Regex.lit : Str → Regex
  | [] => .empty
  | c :: t => .seq (.char c) (Regex.lit t)

/-- The pattern `/\{[\s\S]*\}/` of the response extraction.  The class
`[\s\S]` is the union of the white-space class and its complement. -/
def jsonPattern : Regex :=
  .seq (.char '\x7b') (.seq (.star (.cls (fun c => c.isWhitespace || !c.isWhitespace))) (.char '\x7d'))

/-- The continuation of the extraction pattern after the star: the closing
brace, then success. -/
def closeBrace (y : MatchState) : Option MatchState := (Regex.char '\x7d').run y some

/-- The star of the extraction pattern. -/
def anyStar : Nat → MatchState → (MatchState → Option MatchState) → Option MatchState :=
  repeatMatcher (Regex.cls (fun c => c.isWhitespace || !c.isWhitespace)).run

/-- The pattern `/^image\/(jpeg|png|jpg)$/` of the upload file filter. -/
def mimePattern : Regex :=
  .seq .bol (.seq (Regex.lit "image/".toList)
    (.seq (.alt (Regex.lit "jpeg".toList) (.alt (Regex.lit "png".toList) (Regex.lit "jpg".toList))) .eol))

/-! ## `JSON.parse` -/

/-- JSON values as `JSON.parse` builds them.  A number keeps the text it was
written with (its value is a double in JavaScript); a string is its sequence
of UTF-16 code units; an object is the list of its members in source order. -/
inductive Json where
  | null
  | bool (b : Bool)
  | num (text : Str)
  | str (units : List Nat)
  | arr (items : List Json)
  | obj (members : List (List Nat × Json))

/-- JSON white space: tab, line feed, carriage return, space. -/
def isJsonWs (c : Char) : Bool := c = '\t' || c = '\n' || c = '\r' || c = ' '

/-- Skip leading JSON white space. -/
def skipWs : Str → Str
  | [] => []
  | c :: t => if isJsonWs c then skipWs t else c :: t

/-- The UTF-16 code units of a character. -/
def utf16 (c : Char) : List Nat :=
  if c.toNat < 0x10000 then [c.toNat]
  else [0xD800 + (c.toNat - 0x10000) / 0x400, 0xDC00 + (c.toNat - 0x10000) % 0x400]

/-- Value of a hexadecimal digit. -/
def hexVal (c : Char) : Option Nat :=
  if '0' ≤ c ∧ c ≤ '9' then some (c.toNat - '0'.toNat)
  else if 'a' ≤ c ∧ c ≤ 'f' then some (c.toNat - 'a'.toNat + 10)
  else if 'A' ≤ c ∧ c ≤ 'F' then some (c.toNat - 'A'.toNat + 10)
  else none

/-- The code unit of a `\uXXXX` escape. -/
def hex4 (a b c d : Char) : Option Nat :=
  match hexVal a, hexVal b, hexVal c, hexVal d with
  | some w, some x, some y, some z => some (((w * 16 + x) * 16 + y) * 16 + z)
  | _, _, _, _ => none

/-- The body of a JSON string, after the opening quote: the decoded code units
and the input after the closing quote. -/
def parseString : Str → List Nat → Option (List Nat × Str)
  | [], _ => none
  | '"' :: t, acc => some (acc, t)
  | '\\' :: '"' :: t, acc => parseString t (acc ++ [0x22])
  | '\\' :: '\\' :: t, acc => parseString t (acc ++ [0x5C])
  | '\\' :: '/' :: t, acc => parseString t (acc ++ [0x2F])
  | '\\' :: 'b' :: t, acc => parseString t (acc ++ [0x08])
  | '\\' :: 'f' :: t, acc => parseString t (acc ++ [0x0C])
  | '\\' :: 'n' :: t, acc => parseString t (acc ++ [0x0A])
  | '\\' :: 'r' :: t, acc => parseString t (acc ++ [0x0D])
  | '\\' :: 't' :: t, acc => parseString t (acc ++ [0x09])
  | '\\' :: 'u' :: a :: b :: c :: d :: t, acc =>
    match hex4 a b c d with
    | some u => parseString t (acc ++ [u])
    | none => none
  | '\\' :: _, _ => none
  | c :: t, acc => if c.toNat < 0x20 then none else parseString t (acc ++ utf16 c)

/-- Split off the leading decimal digits. -/
def takeDigits : Str → Str × Str
  | [] => ([], [])
  | c :: t => if c.isDigit then ((takeDigits t).1.cons c, (takeDigits t).2) else ([], c :: t)

/-- The optional fraction part of a JSON number. -/
def parseFrac : Str → Option (Str × Str)
  | '.' :: t =>
    match takeDigits t with
    | ([], _) => none
    | (ds, r) => some ('.' :: ds, r)
  | s => some ([], s)

/-- The optional exponent part of a JSON number. -/
def parseExp : Str → Option (Str × Str)
  | e :: t =>
    if e = 'e' ∨ e = 'E' then
      match t with
      | sg :: u =>
        if sg = '+' ∨ sg = '-' then
          match takeDigits u with
          | ([], _) => none
          | (ds, r) => some (e :: sg :: ds, r)
        else
          match takeDigits t with
          | ([], _) => none
          | (ds, r) => some (e :: ds, r)
      | [] => none
    else some ([], e :: t)
  | [] => some ([], [])

/-- The integer part of a JSON number: `0`, or a nonzero digit and digits. -/
def parseInt : Str → Option (Str × Str)
  | '0' :: t => some (['0'], t)
  | s =>
    match takeDigits s with
    | ([], _) => none
    | (ds, r) => some (ds, r)

/-- A JSON number: its text and the input after it. -/
def parseNumber (s : Str) : Option (Str × Str) :=
  let body := fun (sign : Str) (u : Str) =>
    match parseInt u with
    | none => none
    | some (i, r1) =>
      match parseFrac r1 with
      | none => none
      | some (f, r2) =>
        match parseExp r2 with
        | none => none
        | some (e, r3) => some (sign ++ i ++ f ++ e, r3)
  match s with
  | '-' :: t => body ['-'] t
  | _ => body [] s

mutual
/-- A JSON value at the head of the input (white space already skipped): the
value and the input after it.  The first argument bounds the nesting and the
number of members; `JSON.parse` passes the length of the text. -/
def parseValue : Nat → Str → Option (Json × Str)
  | 0, _ => none
  | f + 1, s =>
    match s with
    | '\x7b' :: t =>
      match skipWs t with
      | '\x7d' :: r => some (.obj [], r)
      | r => parseMembers f r []
    | '[' :: t =>
      match skipWs t with
      | ']' :: r => some (.arr [], r)
      | r => parseElements f r []
    | '"' :: t =>
      match parseString t [] with
      | some (u, r) => some (.str u, r)
      | none => none
    | 't' :: 'r' :: 'u' :: 'e' :: r => some (.bool true, r)
    | 'f' :: 'a' :: 'l' :: 's' :: 'e' :: r => some (.bool false, r)
    | 'n' :: 'u' :: 'l' :: 'l' :: r => some (.null, r)
    | _ =>
      match parseNumber s with
      | some (n, r) => some (.num n, r)
      | none => none
/-- The members of an object, from the start of a member to the closing
brace. -/
def parseMembers : Nat → Str → List (List Nat × Json) → Option (Json × Str)
  | 0, _, _ => none
  | f + 1, s, acc =>
    match s with
    | '"' :: t =>
      match parseString t [] with
      | some (key, r) =>
        match skipWs r with
        | ':' :: r2 =>
          match parseValue f (skipWs r2) with
          | some (v, r3) =>
            match skipWs r3 with
            | ',' :: r4 => parseMembers f (skipWs r4) (acc ++ [(key, v)])
            | '\x7d' :: r4 => some (.obj (acc ++ [(key, v)]), r4)
            | _ => none
          | none => none
        | _ => none
      | none => none
    | _ => none
/-- The elements of an array, from the start of an element to the closing
bracket. -/
def parseElements : Nat → Str → List Json → Option (Json × Str)
  | 0, _, _ => none
  | f + 1, s, acc =>
    match parseValue f s with
    | some (v, r) =>
      match skipWs r with
      | ',' :: r2 => parseElements f (skipWs r2) (acc ++ [v])
      | ']' :: r2 => some (.arr (acc ++ [v]), r2)
      | _ => none
    | none => none
end

/-- The message of the `SyntaxError` that `JSON.parse` throws.  Its wording is
defined by the JavaScript engine; the model uses one fixed text. -/
def syntaxErrorMessage : Str := "Unexpected token in JSON".toList

/-- `JSON.parse(text)`: the value, or the message of the thrown error. -/
def JSON.parse (text : Str) : Except Str Json :=
  match parseValue (text.length + 1) (skipWs text) with
  | some (v, r) => if skipWs r = [] then .ok v else .error syntaxErrorMessage
  | none => .error syntaxErrorMessage

/-! ## Response extraction (`app.js` 111-136, `user_controller.js` 99-124) -/

/-- The value of `result`: either whatever `JSON.parse` returned, or an object
literal written in the source, given by its fields in order. -/
inductive AnalysisResult (α : Type) where
  | parsed (value : α)
  | literal (fields : List (String × Str))

/-- The literal `"ไม่สามารถระบุได้"` (severity cannot be determined). -/
def severityUnknown : Str := "ไม่สามารถระบุได้".toList

/-- The literal `"ไม่สามารถวิเคราะห์จากภาพได้อย่างชัดเจน"` (cannot analyse the image clearly). -/
def descriptionUnclear : Str := "ไม่สามารถวิเคราะห์จากภาพได้อย่างชัดเจน".toList

/-- The literal `"เกิดข้อผิดพลาดในการวิเคราะห์"` (an error occurred during analysis). -/
def descriptionError : Str := "เกิดข้อผิดพลาดในการวิเคราะห์".toList

/-- The literal `"แนะนำให้ตรวจสอบโดยผู้เชี่ยวชาญ"` (recommend inspection by an expert). -/
def recommendExpert : Str := "แนะนำให้ตรวจสอบโดยผู้เชี่ยวชาญ".toList

/-- The object built in the `else` branch, when the pattern did not match. -/
def noMatchFallback (responseText : Str) : List (String × Str) :=
  [("severity", severityUnknown), ("description", descriptionUnclear),
   ("recommendations", recommendExpert), ("raw_response", responseText)]

/-- The object built in the `catch` branch, from the message of the error. -/
def parseErrorFallback (message : Str) : List (String × Str) :=
  [("severity", severityUnknown), ("description", descriptionError),
   ("recommendations", recommendExpert), ("error", message)]

/-- The extraction on the reply text: `responseText.match(/\{[\s\S]*\}/)`, then
`JSON.parse(jsonMatch[0])` inside the `try`, with the two fallbacks.  The
parser is a parameter: it returns the value or the message of the error it
throws. -/
def extractResult {α : Type} (parse : Str → Except Str α) (responseText : Str) : AnalysisResult α :=
  match strMatch responseText jsonPattern with
  | some jsonMatch =>
    match parse jsonMatch with
    | .ok value => .parsed value
    | .error message => .literal (parseErrorFallback message)
  | none => .literal (noMatchFallback responseText)

/-- The message of a chat completion choice; `content` is `null` or a string. -/
structure ChatMessage where
  content : Option Str

/-- One choice of a chat completion. -/
structure Choice where
  message : ChatMessage

/-- The response of `openai.chat.completions.create`. -/
structure ChatCompletion where
  choices : List Choice

/-- Message of the `TypeError` thrown by `response.choices[0].message` when
`choices` is empty (wording of V8). -/
def noChoiceMessage : Str := "Cannot read properties of undefined (reading 'message')".toList

/-- Message of the `TypeError` thrown by `responseText.match` when the content
is `null` (wording of V8). -/
def nullContentMessage : Str := "Cannot read properties of null (reading 'match')".toList

/-- The whole inner `try`/`catch`: read `response.choices[0].message.content`
and extract; an error thrown on the way is caught by the same `catch`. -/
def extractFromResponse {α : Type} (parse : Str → Except Str α) (response : ChatCompletion) :
    AnalysisResult α :=
  match response.choices with
  | [] => .literal (parseErrorFallback noChoiceMessage)
  | choice :: _ =>
    match choice.message.content with
    | none => .literal (parseErrorFallback nullContentMessage)
    | some responseText => extractResult parse responseText

/-! ## Files and the model client -/

/-- File contents. -/
abbrev Bytes := List Nat

/-- The files of the file system, by path. -/
abbrev FS := Str → Option Bytes

/-- `fs.readFileSync(path)`: the content, or the message of the thrown error. -/
def readFileSync (fs : FS) (path : Str) : Except Str Bytes :=
  match fs path with
  | some bytes => .ok bytes
  | none => .error ("ENOENT: no such file or directory, open '".toList ++ path ++ "'".toList)

/-- `fs.unlinkSync(path)`: the file system without the file, or the message of
the thrown error. -/
def unlinkSync (fs : FS) (path : Str) : Except Str FS :=
  match fs path with
  | some _ => .ok (fun q => if q = path then none else fs q)
  | none => .error ("ENOENT: no such file or directory, unlink '".toList ++ path ++ "'".toList)

/-- Writing a file, as the disk storage of multer does for an accepted upload. -/
def writeFile (fs : FS) (path : Str) (bytes : Bytes) : FS :=
  fun q => if q = path then some bytes else fs q

/-- The two prompt templates; their text is fixed and takes no input. -/
inductive Prompt where
  | app
  | controller
  deriving DecidableEq

/-- The request sent to the model.  The image travels as the data URI
`data:image/jpeg;base64,...` of `image`; `sampling` tells whether
`temperature: 0.8, top_p: 0.4` are set. -/
structure ChatRequest where
  model : String
  prompt : Prompt
  image : Bytes
  detail : String
  maxTokens : Nat
  sampling : Bool
  deriving DecidableEq

/-- The external model: for a request, the completion it returns or the
message of the error the call throws. -/
abbrev ModelClient := ChatRequest → Except Str ChatCompletion

/-- The request of `app.js`. -/
def appRequest (image : Bytes) : ChatRequest :=
  ⟨"gpt-4o", .app, image, "high", 1000, true⟩

/-- The request of `user_controller.js`. -/
def controllerRequest (image : Bytes) : ChatRequest :=
  ⟨"gpt-4o", .controller, image, "high", 500, false⟩

/-- What a handler did to the outside world, in order. -/
inductive Effect where
  | readFile (path : Str)
  | modelCall (request : ChatRequest)
  | unlink (path : Str)
  deriving DecidableEq

/-- `path.basename` of Node.js (POSIX), scanning from the end: the state is
`(start, end, matchedSlash)`. -/
def basenameScan (path : Str) : Nat → Nat × Option Nat × Bool → Nat × Option Nat × Bool
  | 0, st => st
  | i + 1, (start, end1, matchedSlash) =>
    if path[i]? = some '/' then
      if !matchedSlash then (i + 1, end1, matchedSlash)
      else basenameScan path i (start, end1, matchedSlash)
    else if end1 = none then basenameScan path i (start, some (i + 1), false)
    else basenameScan path i (start, end1, matchedSlash)

/-- `path.basename(path)`. -/
def basename (path : Str) : Str :=
  match basenameScan path path.length (0, none, true) with
  | (_, none, _) => []
  | (start, some end1, _) => (path.take end1).drop start

/-! ## The handlers of `POST /analyze-accident` -/

/-- The body passed to `res.json`, or the page of the default error handler. -/
inductive Body (α : Type) where
  /-- `res.json({ error: message })` -/
  | error (message : Str)
  /-- `res.json(result)` with a result object -/
  | result (r : AnalysisResult α)
  /-- `res.json(undefined)` -/
  | undefined
  /-- the page Express writes for an error no handler took -/
  | errorPage (message : Str)

/-- An HTTP response. -/
structure Response (α : Type) where
  status : Nat
  body : Body α

/-- The file of a request, `req.file`, as multer fills it. -/
structure UploadedFile where
  originalname : Str
  mimetype : Str
  filename : Str
  path : Str
  size : Nat

/-- The outcome of a handler: the response, the file system it leaves and the
effects it had. -/
structure Outcome (α : Type) where
  response : Response α
  fs : FS
  trace : List Effect

/-- The message `'กรุณาอัปโหลดไฟล์รูปภาพ'` (please upload an image file). -/
def pleaseUpload : Str := "กรุณาอัปโหลดไฟล์รูปภาพ".toList

/-- The template literal with prefix `เกิดข้อผิดพลาด: ` (an error occurred) around
`error.message`. -/
def errorOccurred (message : Str) : Str := "เกิดข้อผิดพลาด: ".toList ++ message

/-- The value `analyzeImage` of `app.js` returns. -/
structure ImageAnalysis (α : Type) where
  filename : Str
  result : Option (AnalysisResult α)
  error : Option Str

/-- The function `analyzeImage` of `app.js`: every error of the read and of the
model call is caught and returned in the `error` field, without a `result`. -/
def analyzeImage {α : Type} (parse : Str → Except Str α) (openai : ModelClient) (fs : FS)
    (imagePath : Str) : ImageAnalysis α × List Effect :=
  match readFileSync fs imagePath with
  | .error message => (⟨basename imagePath, none, some message⟩, [.readFile imagePath])
  | .ok imageBuffer =>
    match openai (appRequest imageBuffer) with
    | .error message =>
      (⟨basename imagePath, none, some message⟩,
        [.readFile imagePath, .modelCall (appRequest imageBuffer)])
    | .ok response =>
      (⟨basename imagePath, some (extractFromResponse parse response), none⟩,
        [.readFile imagePath, .modelCall (appRequest imageBuffer)])

/-- The handler of `app.js` (151-168).  `res.json(result.result)` sends
`undefined` when `analyzeImage` returned an error report. -/
def appHandler {α : Type} (parse : Str → Except Str α) (openai : ModelClient) (fs : FS)
    (file : Option UploadedFile) : Outcome α :=
  match file with
  | none => ⟨⟨400, .error pleaseUpload⟩, fs, []⟩
  | some f =>
    let analysis := analyzeImage parse openai fs f.path
    match unlinkSync fs f.path with
    | .error message => ⟨⟨500, .error (errorOccurred message)⟩, fs, analysis.2 ++ [.unlink f.path]⟩
    | .ok fs1 =>
      match analysis.1.result with
      | some r => ⟨⟨200, .result r⟩, fs1, analysis.2 ++ [.unlink f.path]⟩
      | none => ⟨⟨200, .undefined⟩, fs1, analysis.2 ++ [.unlink f.path]⟩

/-- The handler of `user_controller.js` (49-134). -/
def controllerHandler {α : Type} (parse : Str → Except Str α) (openai : ModelClient) (fs : FS)
    (file : Option UploadedFile) : Outcome α :=
  match file with
  | none => ⟨⟨400, .error pleaseUpload⟩, fs, []⟩
  | some f =>
    match readFileSync fs f.path with
    | .error message => ⟨⟨500, .error (errorOccurred message)⟩, fs, [.readFile f.path]⟩
    | .ok imageBuffer =>
      match openai (controllerRequest imageBuffer) with
      | .error message =>
        ⟨⟨500, .error (errorOccurred message)⟩, fs,
          [.readFile f.path, .modelCall (controllerRequest imageBuffer)]⟩
      | .ok response =>
        match unlinkSync fs f.path with
        | .error message =>
          ⟨⟨500, .error (errorOccurred message)⟩, fs,
            [.readFile f.path, .modelCall (controllerRequest imageBuffer), .unlink f.path]⟩
        | .ok fs1 =>
          ⟨⟨200, .result (extractFromResponse parse response)⟩, fs1,
            [.readFile f.path, .modelCall (controllerRequest imageBuffer), .unlink f.path]⟩

/-! ## Upload intake (`multer` configuration, lines 20-43 of both files) -/

/-- The message of the error of the file filter: `'อนุญาตเฉพาะไฟล์รูปภาพ (jpeg, jpg, png) เท่านั้น'` (only image
files jpeg, jpg, png are allowed). -/
def imagesOnly : Str := "อนุญาตเฉพาะไฟล์รูปภาพ (jpeg, jpg, png) เท่านั้น".toList

/-- What `fileFilter` passes to its callback: `cb(new Error(message), false)`
or `cb(null, true)`. -/
inductive FilterDecision where
  | reject (message : Str)
  | accept
  deriving DecidableEq

/-- The `fileFilter` of the multer configuration:
`if (!file.mimetype.match(/^image\/(jpeg|png|jpg)$/))` reject, else accept. -/
def fileFilter (mimetype : Str) : FilterDecision :=
  match strMatch mimetype mimePattern with
  | none => .reject imagesOnly
  | some _ => .accept

/-- The number `Date.now()` written in decimal, as string concatenation
converts it. -/
def decimal (now : Nat) : Str := Nat.toDigits 10 now

/-- The `filename` callback of `app.js`: `Date.now() + '-' + file.originalname`. -/
def appFilename (now : Nat) (originalname : Str) : Str :=
  decimal now ++ '-' :: originalname

/-- The scan state of `path.extname`; `none` stands for the initial `-1`. -/
structure ExtScan where
  startDot : Option Nat
  startPart : Nat
  end1 : Option Nat
  matchedSlash : Bool
  preDotState : Int

/-- The loop of `path.extname` of Node.js (POSIX), from index `i - 1` down to 0. -/
def extnameScan (path : Str) : Nat → ExtScan → ExtScan
  | 0, st => st
  | i + 1, st =>
    if path[i]? = some '/' then
      if !st.matchedSlash then { st with startPart := i + 1 }
      else extnameScan path i st
    else
      let st1 : ExtScan :=
        if st.end1 = none then { st with matchedSlash := false, end1 := some (i + 1) } else st
      let st2 : ExtScan :=
        if path[i]? = some '.' then
          if st1.startDot = none then { st1 with startDot := some i }
          else if st1.preDotState ≠ 1 then { st1 with preDotState := 1 }
          else st1
        else if st1.startDot ≠ none then { st1 with preDotState := -1 }
        else st1
      extnameScan path i st2

/-- `path.extname(path)` of Node.js (POSIX). -/
def extname (path : Str) : Str :=
  let st := extnameScan path path.length ⟨none, 0, none, true, 0⟩
  match st.startDot, st.end1 with
  | some startDot, some end1 =>
    if st.preDotState = 0 ∨
        (st.preDotState = 1 ∧ startDot = end1 - 1 ∧ startDot = st.startPart + 1) then []
    else (path.take end1).drop startDot
  | _, _ => []

/-- The `filename` callback of `user_controller.js`:
`Date.now() + path.extname(file.originalname)`, for a given `path.extname`. -/
def controllerFilename (pathExtname : Str → Str) (now : Nat) (originalname : Str) : Str :=
  decimal now ++ pathExtname originalname

/-- The directory of the `destination` callback. -/
def uploadDir : Str := "uploads/".toList

/-- The limit `fileSize: 10 * 1024 * 1024`. -/
def fileSizeLimit : Nat := 10 * 1024 * 1024

/-- A file part of a multipart request body, as the client declares it: the
field name and file name of its `Content-Disposition` header, the value of
its `Content-Type` header, and its content. -/
structure FilePart where
  fieldname : Str
  filename : Str
  contentType : Str
  content : Bytes

/-- How the multipart parser under multer reads the declared headers of a file
part before any callback of the source sees them: `mimetype` gives
`file.mimetype` (the declared type with type and subtype lower-cased and
the parameters dropped), `originalname` gives `file.originalname` (the
declared file name without its directory part).  The parser is third-party
code; the routes take it as a parameter. -/
structure MultipartReader where
  mimetype : Str → Str
  originalname : Str → Str

/-- Blank characters around a header value. -/
def isBlank (c : Char) : Bool := c = ' ' || c = '\t'

/-- A header value without its parameters: the text before the first `;`,
without the blanks around it, in lower case. -/
def typeOfHeader (value : Str) : Str :=
  ((((value.takeWhile (fun c => c != ';')).dropWhile isBlank).reverse.dropWhile isBlank).reverse).map
    Char.toLower

/-- The last component of a declared file name: what follows the last `/` or
backslash, and nothing for `.` and `..`. -/
def lastComponent (name : Str) : Str :=
  let tail := (name.reverse.takeWhile (fun c => c != '/' && c != '\\')).reverse
  if tail = ".".toList ∨ tail = "..".toList then [] else tail

/-- A reader for well-formed headers (`type/subtype`, optionally followed by
`;` and parameters), used to run the routes on sample requests. -/
def plainReader : MultipartReader := ⟨typeOfHeader, lastComponent⟩

/-- What the middleware `upload.single('image')` hands on: `next()` with
`req.file` set or not, or `next(err)`. -/
inductive Intake where
  | next (file : Option UploadedFile) (fs : FS)
  | failed (message : Str) (fs : FS)

/-- The middleware `upload.single('image')` on a request with at most one file
part, following multer: a part without a file name is ignored; a part under
another field name is an error; then the file filter runs on the file as
the parser reports it; an error of the filter aborts the upload before the
storage is asked to write; a file over the size limit is removed again; and
an accepted file is written under `uploads/` with the name the `filename`
callback gives. -/
def uploadSingle (reader : MultipartReader) (filename : Nat → Str → Str) (now : Nat) (fs : FS) :
    Option FilePart → Intake
  | none => .next none fs
  | some part =>
    if reader.originalname part.filename = [] then .next none fs
    else if part.fieldname ≠ "image".toList then .failed "Unexpected field".toList fs
    else
      match fileFilter (reader.mimetype part.contentType) with
      | .reject message => .failed message fs
      | .accept =>
        if fileSizeLimit < part.content.length then .failed "File too large".toList fs
        else
          .next
            (some ⟨reader.originalname part.filename, reader.mimetype part.contentType,
              filename now (reader.originalname part.filename),
              uploadDir ++ filename now (reader.originalname part.filename),
              part.content.length⟩)
            (writeFile fs (uploadDir ++ filename now (reader.originalname part.filename))
              part.content)

/-- The route `app.post('/analyze-accident', upload.single('image'), handler)`:
the handler runs only when the middleware called `next()`; an error passed
to `next` reaches, since neither file registers an error handler, the default
error handler of Express, which answers with status 500 for an error that
carries no status. -/
def route {α : Type} (handler : FS → Option UploadedFile → Outcome α)
    (reader : MultipartReader) (filename : Nat → Str → Str) (now : Nat) (fs : FS)
    (part : Option FilePart) : Outcome α :=
  match uploadSingle reader filename now fs part with
  | .failed message fs1 => ⟨⟨500, .errorPage message⟩, fs1, []⟩
  | .next file fs1 => handler fs1 file

/-- The route of `app.js`. -/
def appRoute {α : Type} (parse : Str → Except Str α) (openai : ModelClient)
    (reader : MultipartReader) (now : Nat) (fs : FS) (part : Option FilePart) : Outcome α :=
  route (appHandler parse openai) reader appFilename now fs part

/-- The route of `user_controller.js`. -/
def controllerRoute {α : Type} (parse : Str → Except Str α) (openai : ModelClient)
    (reader : MultipartReader) (now : Nat) (fs : FS) (part : Option FilePart) : Outcome α :=
  route (controllerHandler parse openai) reader (controllerFilename extname) now fs part

/-! ## Sample inputs -/

/-- The object of the example of the specification. -/
def scratchReport : Json :=
  .obj [("severity".toList.map Char.toNat, .str ("light".toList.map Char.toNat)),
        ("description".toList.map Char.toNat, .str ("scratch".toList.map Char.toNat))]

/-- An accepted upload as multer records it. -/
def sampleFile : UploadedFile :=
  ⟨"crash.png".toList, "image/png".toList, "1700000000000-crash.png".toList,
    "uploads/1700000000000-crash.png".toList, 4⟩

/-- A file system holding the sample upload and one other file. -/
def sampleFS : FS := fun q =>
  if q = "uploads/1700000000000-crash.png".toList then some [137, 80, 78, 71]
  else if q = "uploads/1699999999999-other.png".toList then some [1]
  else none

/-- A model client whose calls throw a quota error. -/
def quotaClient : ModelClient := fun _ => .error "429 quota exceeded".toList

/-- A model client that answers every request with the given text. -/
def proseClient (text : Str) : ModelClient := fun _ => .ok ⟨[⟨⟨some text⟩⟩]⟩

/-- The value of a decimal numeral. -/
def digitsValue (ds : Str) : Nat := ds.foldl (fun a c => 10 * a + (c.toNat - 48)) 0


/-! ## The extraction pattern -/

/-- The class `[\s\S]` holds every character. -/
theorem anyClass (c : Char) : (c.isWhitespace || !c.isWhitespace) = true := by
  cases c.isWhitespace <;> rfl

theorem anyStar_nil (n i : Nat) (k : MatchState → Option MatchState) :
    anyStar n ⟨i, []⟩ k = k ⟨i, []⟩ := by
  cases n with
  | zero => rfl
  | succ n => simp [anyStar, repeatMatcher, Regex.run]

theorem anyStar_cons (n i : Nat) (c : Char) (t : Str) (k : MatchState → Option MatchState) :
    anyStar (n + 1) ⟨i, c :: t⟩ k =
      match anyStar n ⟨i + 1, t⟩ k with
      | some z => some z
      | none => k ⟨i, c :: t⟩ := by
  simp [anyStar, repeatMatcher, Regex.run, anyClass]

/-- Without a closing brace ahead, the star followed by the brace fails. -/
theorem anyStar_none (s : Str) (h : '\x7d' ∉ s) (n i : Nat) :
    anyStar n ⟨i, s⟩ closeBrace = none := by
  induction s generalizing n i with
  | nil => rw [anyStar_nil]; rfl
  | cons c t ih =>
    have hc : c ≠ '\x7d' := fun e => h (by simp [e])
    have ht : '\x7d' ∉ t := fun e => h (by simp [e])
    cases n with
    | zero => simp [anyStar, repeatMatcher, closeBrace, Regex.run, hc]
    | succ n =>
      rw [anyStar_cons, ih ht]
      simp [closeBrace, Regex.run, hc]

/-- The star runs to the last closing brace. -/
theorem anyStar_last (mid suf : Str) (h : '\x7d' ∉ suf) (n i : Nat)
    (hn : (mid ++ '\x7d' :: suf).length ≤ n) :
    anyStar n ⟨i, mid ++ '\x7d' :: suf⟩ closeBrace = some ⟨i + mid.length + 1, suf⟩ := by
  induction mid generalizing n i with
  | nil =>
    cases n with
    | zero => simp at hn
    | succ n =>
      simp only [List.nil_append]
      rw [anyStar_cons, anyStar_none suf h]
      simp [closeBrace, Regex.run]
  | cons c t ih =>
    cases n with
    | zero => simp at hn
    | succ n =>
      simp only [List.cons_append]
      rw [anyStar_cons, ih n (i + 1) (by simpa using hn)]
      simp; omega

theorem jsonPattern_run (i : Nat) (s : Str) :
    jsonPattern.run ⟨i, s⟩ some =
      match s with
      | [] => none
      | c :: t => if c = '\x7b' then anyStar t.length ⟨i + 1, t⟩ closeBrace else none := by
  cases s with
  | nil => rfl
  | cons c t => rfl

/-- The search skips a prefix without an opening brace. -/
theorem execFrom_skip (pre s : Str) (h : '\x7b' ∉ pre) (i : Nat) :
    execFrom jsonPattern i (pre ++ s) = execFrom jsonPattern (i + pre.length) s := by
  induction pre generalizing i with
  | nil => rfl
  | cons c t ih =>
    have hc : c ≠ '\x7b' := fun e => h (by simp [e])
    have ht : '\x7b' ∉ t := fun e => h (by simp [e])
    simp only [List.cons_append, execFrom, jsonPattern_run, hc, if_false]
    have e := ih ht (i + 1)
    simp only [List.length_cons]
    rw [show i + (t.length + 1) = i + 1 + t.length by omega]
    exact e

/-- Without an opening brace the pattern does not match. -/
theorem execFrom_no_open (s : Str) (h : '\x7b' ∉ s) (i : Nat) :
    execFrom jsonPattern i s = none := by
  induction s generalizing i with
  | nil => rfl
  | cons c t ih =>
    have hc : c ≠ '\x7b' := fun e => h (by simp [e])
    have ht : '\x7b' ∉ t := fun e => h (by simp [e])
    simp only [execFrom, jsonPattern_run, hc, if_false]
    exact ih ht _

/-- Without a closing brace the pattern does not match. -/
theorem execFrom_no_close (s : Str) (h : '\x7d' ∉ s) (i : Nat) :
    execFrom jsonPattern i s = none := by
  induction s generalizing i with
  | nil => rfl
  | cons c t ih =>
    have ht : '\x7d' ∉ t := fun e => h (by simp [e])
    simp only [execFrom, jsonPattern_run]
    by_cases hc : c = '\x7b'
    · simp only [hc, if_true, anyStar_none t ht]
      exact ih ht _
    · simp only [hc, if_false]
      exact ih ht _

/-- The span the pattern matches: from the first opening brace to the last
closing brace after it. -/
theorem strMatch_span (pre mid suf : Str) (hpre : '\x7b' ∉ pre) (hsuf : '\x7d' ∉ suf) :
    strMatch (pre ++ '\x7b' :: (mid ++ '\x7d' :: suf)) jsonPattern
      = some ('\x7b' :: (mid ++ ['\x7d'])) := by
  unfold strMatch
  rw [execFrom_skip pre _ hpre]
  simp only [execFrom, jsonPattern_run, if_true]
  rw [anyStar_last mid suf hsuf _ _ (le_refl _)]
  simp only [Option.some.injEq]
  have : 0 + pre.length + 1 + mid.length + 1 - (0 + pre.length) = (mid.length + 1) + 1 := by omega
  rw [this, List.take_succ_cons]
  congr 1
  have h2 : mid.length + 1 = (mid ++ ['\x7d']).length := by simp
  rw [h2, show mid ++ '\x7d' :: suf = (mid ++ ['\x7d']) ++ suf by simp, List.take_left]

/-! ## Response extraction -/

/-- The extraction hands the matched span to the parser and maps its outcome. -/
theorem extractResult_of_match {α : Type} (parse : Str → Except Str α) (text span : Str)
    (h : strMatch text jsonPattern = some span) :
    extractResult parse text =
      match parse span with
      | .ok value => .parsed value
      | .error message => .literal (parseErrorFallback message) := by
  simp only [extractResult, h]

/-- The extraction of a reply the pattern does not match. -/
theorem extractResult_of_no_match {α : Type} (parse : Str → Except Str α) (text : Str)
    (h : strMatch text jsonPattern = none) :
    extractResult parse text = .literal (noMatchFallback text) := by
  simp only [extractResult, h]

/-- C1: for a reply `pre ++ J ++ suf` where `pre` has no opening brace, `suf`
has no closing brace and `J` is the text of a JSON object (it runs from its
opening to its closing brace and the parser accepts it with value `value`),
the extraction returns exactly `value`, through the success branch and not
through a fallback, whatever the parser is.  The extraction code is the same
text in `app.js` and `user_controller.js`. -/
theorem extract_embedded_object {α : Type} (parse : Str → Except Str α)
    (pre body suf : Str) (value : α)
    (hpre : '\x7b' ∉ pre) (hsuf : '\x7d' ∉ suf)
    (hJ : parse ('\x7b' :: (body ++ ['\x7d'])) = .ok value) :
    extractResult parse (pre ++ '\x7b' :: (body ++ ['\x7d']) ++ suf) = .parsed value := by
  have hm : strMatch (pre ++ '\x7b' :: (body ++ ['\x7d']) ++ suf) jsonPattern
      = some ('\x7b' :: (body ++ ['\x7d'])) := by
    have := strMatch_span pre body suf hpre hsuf
    simpa using this
  rw [extractResult_of_match parse _ _ hm, hJ]

/-- C1, witness: the reply
`Some preamble {"severity":"light","description":"scratch"} trailing notes`
yields the object with `severity: "light"` and `description: "scratch"`. -/
theorem extract_embedded_object_witness :
    '\x7b' ∉ "Some preamble ".toList ∧ '\x7d' ∉ " trailing notes".toList ∧
    JSON.parse "\x7b\"severity\":\"light\",\"description\":\"scratch\"\x7d".toList
      = .ok scratchReport ∧
    extractResult JSON.parse
      "Some preamble \x7b\"severity\":\"light\",\"description\":\"scratch\"\x7d trailing notes".toList
      = .parsed scratchReport :=
  ⟨by decide, by decide, rfl,
    extract_embedded_object JSON.parse "Some preamble ".toList
      "\"severity\":\"light\",\"description\":\"scratch\"".toList " trailing notes".toList
      scratchReport (by decide) (by decide) rfl⟩

/-- C2, counterexample: the reply `}{` contains an opening and a closing brace,
yet the pattern does not match: nothing is handed to the parser and the
result is the fallback with the raw text. -/
theorem greedy_span_counterexample :
    '\x7b' ∈ "\x7d\x7b".toList ∧ '\x7d' ∈ "\x7d\x7b".toList ∧
    strMatch "\x7d\x7b".toList jsonPattern = none ∧
    extractResult JSON.parse "\x7d\x7b".toList = .literal (noMatchFallback "\x7d\x7b".toList) :=
  ⟨by decide, by decide, by decide, rfl⟩

/-- C2, amended: whenever the reply contains an opening brace and a closing
brace after it, that is, the reply is `pre ++ '{' :: mid ++ '}' :: suf` with
no opening brace in `pre` and no closing brace in `suf`, the substring the
pattern matches, and the extraction hands to the parser, runs from the first
opening brace to the last closing brace, whatever braces `mid` holds.
Whenever every closing brace precedes the first opening brace, that is, the
reply is `pre ++ tail` with no opening brace in `pre` and no closing brace in
`tail`, the pattern does not match, nothing is handed to the parser and the
result is the fallback with the raw text. -/
theorem greedy_span {α : Type} (parse : Str → Except Str α) (pre mid suf tail : Str)
    (hpre : '\x7b' ∉ pre) (hsuf : '\x7d' ∉ suf) (htail : '\x7d' ∉ tail) :
    (strMatch (pre ++ '\x7b' :: (mid ++ '\x7d' :: suf)) jsonPattern
        = some ('\x7b' :: (mid ++ ['\x7d'])) ∧
      extractResult parse (pre ++ '\x7b' :: (mid ++ '\x7d' :: suf)) =
        match parse ('\x7b' :: (mid ++ ['\x7d'])) with
        | .ok value => .parsed value
        | .error message => .literal (parseErrorFallback message)) ∧
    (strMatch (pre ++ tail) jsonPattern = none ∧
      extractResult parse (pre ++ tail) = .literal (noMatchFallback (pre ++ tail))) := by
  have hnone : strMatch (pre ++ tail) jsonPattern = none := by
    unfold strMatch
    rw [execFrom_skip pre tail hpre, execFrom_no_close tail htail]
  exact ⟨⟨strMatch_span pre mid suf hpre hsuf,
      extractResult_of_match parse _ _ (strMatch_span pre mid suf hpre hsuf)⟩,
    hnone, extractResult_of_no_match parse _ hnone⟩

/-- C2, witness: in `a}{b}c{d}e{` the span is `{b}c{d}`, not the first balanced
group `{b}`; in `a}{x` the only closing brace precedes the opening brace and
the pattern does not match. -/
theorem greedy_span_witness :
    '\x7b' ∉ "a\x7d".toList ∧ '\x7d' ∉ "e\x7b".toList ∧ '\x7d' ∉ "\x7bx".toList ∧
    strMatch "a\x7d\x7bb\x7dc\x7bd\x7de\x7b".toList jsonPattern
      = some "\x7bb\x7dc\x7bd\x7d".toList ∧
    strMatch "a\x7d\x7bx".toList jsonPattern = none ∧
    extractResult JSON.parse "a\x7d\x7bx".toList
      = .literal (noMatchFallback "a\x7d\x7bx".toList) :=
  ⟨by decide, by decide, by decide,
    (greedy_span JSON.parse "a\x7d".toList "b\x7dc\x7bd".toList "e\x7b".toList "\x7bx".toList
      (by decide) (by decide) (by decide)).1.1,
    (greedy_span JSON.parse "a\x7d".toList "b\x7dc\x7bd".toList "e\x7b".toList "\x7bx".toList
      (by decide) (by decide) (by decide)).2.1,
    (greedy_span JSON.parse "a\x7d".toList "b\x7dc\x7bd".toList "e\x7b".toList "\x7bx".toList
      (by decide) (by decide) (by decide)).2.2⟩

/-- C3: for a reply with no opening and no closing brace, the extraction
returns the fallback object with the three fixed literals and the reply,
unchanged, under `raw_response`; the object has no `error` field. -/
theorem no_brace_fallback {α : Type} (parse : Str → Except Str α) (text : Str)
    (hopen : '\x7b' ∉ text) (_hclose : '\x7d' ∉ text) :
    extractResult parse text = .literal (noMatchFallback text) ∧
    (noMatchFallback text).map Prod.fst
      = ["severity", "description", "recommendations", "raw_response"] ∧
    (noMatchFallback text).lookup "severity" = some severityUnknown ∧
    (noMatchFallback text).lookup "description" = some descriptionUnclear ∧
    (noMatchFallback text).lookup "recommendations" = some recommendExpert ∧
    (noMatchFallback text).lookup "raw_response" = some text ∧
    (noMatchFallback text).lookup "error" = none := by
  refine ⟨extractResult_of_no_match parse text (execFrom_no_open text hopen 0), ?_, ?_, ?_, ?_, ?_, ?_⟩
    <;> simp [noMatchFallback, List.lookup]

/-- C3, witness: a reply in plain prose. -/
theorem no_brace_fallback_witness :
    '\x7b' ∉ "I cannot tell.".toList ∧ '\x7d' ∉ "I cannot tell.".toList ∧
    extractResult JSON.parse "I cannot tell.".toList
      = .literal (noMatchFallback "I cannot tell.".toList) :=
  ⟨by decide, by decide,
    (no_brace_fallback JSON.parse "I cannot tell.".toList (by decide) (by decide)).1⟩

/-- C4, counterexample: the two failure kinds do not share one description
literal.  A reply without braces gets the description "cannot analyse the
image clearly", a reply whose brace span is malformed JSON gets "an error
occurred during analysis". -/
theorem fallback_literals_counterexample :
    extractResult JSON.parse "no report".toList = .literal (noMatchFallback "no report".toList) ∧
    extractResult JSON.parse "\x7boops\x7d".toList
      = .literal (parseErrorFallback syntaxErrorMessage) ∧
    (noMatchFallback "no report".toList).lookup "description"
      ≠ (parseErrorFallback syntaxErrorMessage).lookup "description" :=
  ⟨rfl, rfl, by decide⟩

/-- C4, amended: on every reply on which the extraction fails, the result is a
fallback object with the same severity and recommendation literals in both
failure kinds, with one of two description literals, and with exactly one
diagnostic field after them: `raw_response` holding the reply when no brace
span is found (description "cannot analyse clearly"), `error` holding the
message of the parser when the span is malformed (description "an error
occurred"). -/
theorem fallback_shape {α : Type} (parse : Str → Except Str α) (text : Str)
    (hfail : ∀ value, extractResult parse text ≠ .parsed value) :
    ∃ fields : List (String × Str),
      extractResult parse text = .literal fields ∧
      fields.lookup "severity" = some severityUnknown ∧
      fields.lookup "recommendations" = some recommendExpert ∧
      ((strMatch text jsonPattern = none ∧
          fields.map Prod.fst = ["severity", "description", "recommendations", "raw_response"] ∧
          fields.lookup "description" = some descriptionUnclear ∧
          fields.lookup "raw_response" = some text) ∨
       (∃ span message, strMatch text jsonPattern = some span ∧ parse span = .error message ∧
          fields.map Prod.fst = ["severity", "description", "recommendations", "error"] ∧
          fields.lookup "description" = some descriptionError ∧
          fields.lookup "error" = some message)) := by
  cases hm : strMatch text jsonPattern with
  | none =>
    refine ⟨noMatchFallback text, extractResult_of_no_match parse text hm, ?_, ?_, Or.inl ?_⟩
    · simp [noMatchFallback, List.lookup]
    · simp [noMatchFallback, List.lookup]
    · simp [noMatchFallback, List.lookup]
  | some span =>
    cases hp : parse span with
    | ok value =>
      exact absurd (by rw [extractResult_of_match parse text span hm, hp]) (hfail value)
    | error message =>
      refine ⟨parseErrorFallback message, ?_, ?_, ?_, Or.inr ⟨span, message, rfl, hp, ?_⟩⟩
      · rw [extractResult_of_match parse text span hm, hp]
      · simp [parseErrorFallback, List.lookup]
      · simp [parseErrorFallback, List.lookup]
      · simp [parseErrorFallback, List.lookup]

/-- C4, witness: the malformed span `{oops}`. -/
theorem fallback_shape_witness :
    ∃ fields : List (String × Str),
      extractResult JSON.parse "\x7boops\x7d".toList = .literal fields ∧
      fields.lookup "severity" = some severityUnknown ∧
      fields.lookup "recommendations" = some recommendExpert ∧
      ((strMatch "\x7boops\x7d".toList jsonPattern = none ∧
          fields.map Prod.fst = ["severity", "description", "recommendations", "raw_response"] ∧
          fields.lookup "description" = some descriptionUnclear ∧
          fields.lookup "raw_response" = some "\x7boops\x7d".toList) ∨
       (∃ span message, strMatch "\x7boops\x7d".toList jsonPattern = some span ∧
          JSON.parse span = .error message ∧
          fields.map Prod.fst = ["severity", "description", "recommendations", "error"] ∧
          fields.lookup "description" = some descriptionError ∧
          fields.lookup "error" = some message)) :=
  fallback_shape JSON.parse "\x7boops\x7d".toList (fun value h => by
    have e : extractResult JSON.parse "\x7boops\x7d".toList
        = .literal (parseErrorFallback syntaxErrorMessage) := rfl
    rw [e] at h
    cases h)

/-! ## The handlers -/

/-- Reading a file that exists. -/
theorem readFileSync_of_some (fs : FS) (path : Str) (bytes : Bytes) (h : fs path = some bytes) :
    readFileSync fs path = .ok bytes := by
  simp only [readFileSync, h]

/-- Deleting a file that exists. -/
theorem unlinkSync_of_some (fs : FS) (path : Str) (bytes : Bytes) (h : fs path = some bytes) :
    unlinkSync fs path = .ok (fun q => if q = path then none else fs q) := by
  simp only [unlinkSync, h]

/-- C5: when the file of the request exists and the model call throws with
message `m`, `user_controller.js` answers 500 with the error body whose
message ends with `m`, but `app.js` answers 200 with `res.json(undefined)`:
`analyzeImage` catches the error and returns an error report, and the handler
sends its absent `result` field. -/
theorem model_failure_response {α : Type} (parse : Str → Except Str α) (openai : ModelClient)
    (fs : FS) (f : UploadedFile) (image : Bytes) (m : Str)
    (hfile : fs f.path = some image)
    (happ : openai (appRequest image) = .error m)
    (hctl : openai (controllerRequest image) = .error m) :
    (controllerHandler parse openai fs (some f)).response.status = 500 ∧
    (∃ message, (controllerHandler parse openai fs (some f)).response.body = .error message ∧
      m <:+ message) ∧
    (analyzeImage parse openai fs f.path).1.error = some m ∧
    (analyzeImage parse openai fs f.path).1.result = none ∧
    (appHandler parse openai fs (some f)).response.status = 200 ∧
    (appHandler parse openai fs (some f)).response.body = .undefined := by
  have hr := readFileSync_of_some fs f.path image hfile
  have hu := unlinkSync_of_some fs f.path image hfile
  refine ⟨?_, ⟨errorOccurred m, ?_, ?_⟩, ?_, ?_, ?_, ?_⟩
  · simp only [controllerHandler, hr, hctl]
  · simp only [controllerHandler, hr, hctl]
  · exact List.suffix_append _ _
  · simp only [analyzeImage, hr, happ]
  · simp only [analyzeImage, hr, happ]
  · simp only [appHandler, analyzeImage, hr, happ, hu]
  · simp only [appHandler, analyzeImage, hr, happ, hu]

/-- C5, witness: the file is in place and the model call throws
`429 quota exceeded`. -/
theorem model_failure_response_witness :
    sampleFS sampleFile.path = some [137, 80, 78, 71] ∧
    (controllerHandler JSON.parse quotaClient sampleFS (some sampleFile)).response.status = 500 ∧
    (controllerHandler JSON.parse quotaClient sampleFS (some sampleFile)).response.body
      = .error (errorOccurred "429 quota exceeded".toList) ∧
    (appHandler JSON.parse quotaClient sampleFS (some sampleFile)).response.status = 200 ∧
    (appHandler JSON.parse quotaClient sampleFS (some sampleFile)).response.body = .undefined :=
  ⟨by decide,
    (model_failure_response JSON.parse quotaClient sampleFS sampleFile [137, 80, 78, 71]
      "429 quota exceeded".toList (by decide) rfl rfl).1,
    rfl,
    (model_failure_response JSON.parse quotaClient sampleFS sampleFile [137, 80, 78, 71]
      "429 quota exceeded".toList (by decide) rfl rfl).2.2.2.2.1,
    (model_failure_response JSON.parse quotaClient sampleFS sampleFile [137, 80, 78, 71]
      "429 quota exceeded".toList (by decide) rfl rfl).2.2.2.2.2⟩

/-- With the file in place and the model call returning, both handlers answer
200 with the extracted result, parsed or fallback. -/
theorem handlers_answer_result {α : Type} (parse : Str → Except Str α) (openai : ModelClient)
    (fs : FS) (f : UploadedFile) (image : Bytes) (rapp rctl : ChatCompletion)
    (hfile : fs f.path = some image)
    (happ : openai (appRequest image) = .ok rapp)
    (hctl : openai (controllerRequest image) = .ok rctl) :
    (appHandler parse openai fs (some f)).response
      = ⟨200, .result (extractFromResponse parse rapp)⟩ ∧
    (controllerHandler parse openai fs (some f)).response
      = ⟨200, .result (extractFromResponse parse rctl)⟩ := by
  have hr := readFileSync_of_some fs f.path image hfile
  have hu := unlinkSync_of_some fs f.path image hfile
  constructor
  · simp only [appHandler, analyzeImage, hr, happ, hu]
  · simp only [controllerHandler, hr, hctl, hu]

/-- A successful `fs.unlinkSync` removes the file and nothing else. -/
theorem unlinkSync_ok (fs fs1 : FS) (path : Str) (h : unlinkSync fs path = .ok fs1) :
    fs1 path = none ∧ ∀ q, q ≠ path → fs1 q = fs q := by
  unfold unlinkSync at h
  cases hf : fs path with
  | none => rw [hf] at h; cases h
  | some b =>
    rw [hf] at h
    simp only [Except.ok.injEq] at h
    subst h
    exact ⟨by simp, fun q hq => by simp [hq]⟩

/-- The handler of `app.js` answers 200 only after a successful unlink. -/
theorem appHandler_ok {α : Type} (parse : Str → Except Str α) (openai : ModelClient)
    (fs : FS) (f : UploadedFile)
    (h : (appHandler parse openai fs (some f)).response.status = 200) :
    ∃ fs1, unlinkSync fs f.path = .ok fs1 ∧ (appHandler parse openai fs (some f)).fs = fs1 := by
  unfold appHandler at h ⊢
  cases hu : unlinkSync fs f.path with
  | error m => simp [hu] at h
  | ok fs1 =>
    refine ⟨fs1, rfl, ?_⟩
    simp only [hu]
    cases (analyzeImage parse openai fs f.path).1.result <;> rfl

/-- The handler of `user_controller.js` answers 200 only after a successful
unlink. -/
theorem controllerHandler_ok {α : Type} (parse : Str → Except Str α) (openai : ModelClient)
    (fs : FS) (f : UploadedFile)
    (h : (controllerHandler parse openai fs (some f)).response.status = 200) :
    ∃ fs1, unlinkSync fs f.path = .ok fs1 ∧
      (controllerHandler parse openai fs (some f)).fs = fs1 := by
  unfold controllerHandler at h ⊢
  cases hr : readFileSync fs f.path with
  | error m => simp [hr] at h
  | ok image =>
    cases ho : openai (controllerRequest image) with
    | error m => simp [hr, ho] at h
    | ok response =>
      cases hu : unlinkSync fs f.path with
      | error m => simp [hr, ho, hu] at h
      | ok fs1 => exact ⟨fs1, rfl, by simp only [hr, ho, hu]⟩

/-- C6: for every request with a file that either handler (the one of
`app.js` or the one of `user_controller.js`) answers with status 200, the
file at `req.file.path` is gone from the file system the handler leaves when
it responds, and every other path holds what it held before. -/
theorem success_removes_only_upload {α : Type} (parse : Str → Except Str α) (openai : ModelClient)
    (handler : FS → Option UploadedFile → Outcome α)
    (hhandler : handler = appHandler parse openai ∨ handler = controllerHandler parse openai)
    (fs : FS) (f : UploadedFile)
    (hok : (handler fs (some f)).response.status = 200) :
    (handler fs (some f)).fs f.path = none ∧
    ∀ q, q ≠ f.path → (handler fs (some f)).fs q = fs q := by
  rcases hhandler with rfl | rfl
  · obtain ⟨fs1, hu, hfs⟩ := appHandler_ok parse openai fs f hok
    rw [hfs]
    exact unlinkSync_ok fs fs1 f.path hu
  · obtain ⟨fs1, hu, hfs⟩ := controllerHandler_ok parse openai fs f hok
    rw [hfs]
    exact unlinkSync_ok fs fs1 f.path hu

/-- C6, witness: the model answers with prose; the handler of `app.js` answers
200 with the fallback object, the upload is gone and the other file of
`uploads/` is still there. -/
theorem success_removes_only_upload_witness :
    (appHandler JSON.parse (proseClient "It looks minor.".toList) sampleFS
      (some sampleFile)).response.status = 200 ∧
    (appHandler JSON.parse (proseClient "It looks minor.".toList) sampleFS
      (some sampleFile)).response.body
        = .result (.literal (noMatchFallback "It looks minor.".toList)) ∧
    sampleFS sampleFile.path = some [137, 80, 78, 71] ∧
    (appHandler JSON.parse (proseClient "It looks minor.".toList) sampleFS
      (some sampleFile)).fs sampleFile.path = none ∧
    (appHandler JSON.parse (proseClient "It looks minor.".toList) sampleFS
      (some sampleFile)).fs "uploads/1699999999999-other.png".toList = some [1] :=
  ⟨rfl, rfl, by decide,
    (success_removes_only_upload JSON.parse (proseClient "It looks minor.".toList)
      (appHandler JSON.parse (proseClient "It looks minor.".toList)) (Or.inl rfl)
      sampleFS sampleFile rfl).1,
    ((success_removes_only_upload JSON.parse (proseClient "It looks minor.".toList)
      (appHandler JSON.parse (proseClient "It looks minor.".toList)) (Or.inl rfl)
      sampleFS sampleFile rfl).2 "uploads/1699999999999-other.png".toList (by decide)).trans
      (by decide)⟩

/-- C7: a request without a file gets exactly status 400 with the body
`{ error: 'กรุณาอัปโหลดไฟล์รูปภาพ' }` from both handlers, with no effect at all: no
file read, no model call, no file deleted, and the file system as it was. -/
theorem missing_file_response {α : Type} (parse : Str → Except Str α) (openai : ModelClient)
    (fs : FS) :
    (appHandler parse openai fs none).response.status = 400 ∧
    (appHandler parse openai fs none).response.body = .error pleaseUpload ∧
    (appHandler parse openai fs none).trace = [] ∧
    (appHandler parse openai fs none).fs = fs ∧
    (controllerHandler parse openai fs none).response.status = 400 ∧
    (controllerHandler parse openai fs none).response.body = .error pleaseUpload ∧
    (controllerHandler parse openai fs none).trace = [] ∧
    (controllerHandler parse openai fs none).fs = fs :=
  ⟨rfl, rfl, rfl, rfl, rfl, rfl, rfl, rfl⟩

/-! ## The file filter -/

/-- A literal pattern succeeds exactly on an input that starts with the
literal, and continues after it. -/
theorem lit_run_isSome (s : Str) (i : Nat) (inp : Str) (k : MatchState → Option MatchState) :
    ((Regex.lit s).run ⟨i, inp⟩ k).isSome = true ↔
      ∃ r, inp = s ++ r ∧ (k ⟨i + s.length, r⟩).isSome = true := by
  induction s generalizing i inp with
  | nil => simp [Regex.lit, Regex.run]
  | cons c t ih =>
    cases inp with
    | nil => simp [Regex.lit, Regex.run]
    | cons d u =>
      by_cases hd : d = c
      · subst hd
        simp only [Regex.lit, Regex.run, if_true, ih, List.cons_append, List.cons.injEq,
          true_and, List.length_cons]
        constructor
        · rintro ⟨r, h1, h2⟩
          exact ⟨r, h1, by rwa [show i + (t.length + 1) = i + 1 + t.length by omega]⟩
        · rintro ⟨r, h1, h2⟩
          exact ⟨r, h1, by rwa [show i + 1 + t.length = i + (t.length + 1) by omega]⟩
      · simp [Regex.lit, Regex.run, hd]

/-- Unfolding of a concatenation. -/
theorem seq_run (a b : Regex) (x : MatchState) (k : MatchState → Option MatchState) :
    (Regex.seq a b).run x k = a.run x (fun y => b.run y k) := rfl

/-- Unfolding of the assertion `^`. -/
theorem bol_run (x : MatchState) (k : MatchState → Option MatchState) :
    Regex.bol.run x k = if x.endIndex = 0 then k x else none := rfl

/-- A disjunction succeeds when one of its alternatives does. -/
theorem alt_run_isSome (a b : Regex) (x : MatchState) (k : MatchState → Option MatchState) :
    ((Regex.alt a b).run x k).isSome = true ↔
      (a.run x k).isSome = true ∨ (b.run x k).isSome = true := by
  simp only [Regex.run]
  cases a.run x k <;> simp

/-- The filter pattern matches at index `i` only for `i = 0`, and then
exactly on the three accepted texts. -/
theorem mimePattern_run_isSome (i : Nat) (m : Str) :
    (mimePattern.run ⟨i, m⟩ some).isSome = true ↔
      i = 0 ∧ (m = "image/jpeg".toList ∨ m = "image/png".toList ∨ m = "image/jpg".toList) := by
  have key : ∀ (s : Str) (j : Nat) (r : Str),
      ((Regex.lit s).run ⟨j, r⟩ (fun y => Regex.eol.run y some)).isSome = true ↔ r = s := by
    intro s j r
    rw [lit_run_isSome]
    constructor
    · rintro ⟨r1, h1, h2⟩
      by_cases h3 : r1 = []
      · simpa [h3] using h1
      · simp [Regex.run, h3] at h2
    · intro h
      exact ⟨[], by simp [h], by simp [Regex.run]⟩
  unfold mimePattern
  rw [seq_run, bol_run]
  by_cases hi : i = 0
  · subst hi
    simp only [if_true, true_and]
    rw [seq_run, lit_run_isSome]
    simp only [seq_run]
    constructor
    · rintro ⟨r, h1, h2⟩
      have h3 := (alt_run_isSome _ _ _ _).1 h2
      rcases h3 with h3 | h3
      · rw [(key _ _ _).1 h3] at h1; exact Or.inl h1
      · rcases (alt_run_isSome _ _ _ _).1 h3 with h4 | h4
        · rw [(key _ _ _).1 h4] at h1; exact Or.inr (Or.inl h1)
        · rw [(key _ _ _).1 h4] at h1; exact Or.inr (Or.inr h1)
    · rintro (h | h | h)
      · exact ⟨"jpeg".toList, h, (alt_run_isSome _ _ _ _).2 (Or.inl ((key _ _ _).2 rfl))⟩
      · exact ⟨"png".toList, h, (alt_run_isSome _ _ _ _).2
          (Or.inr ((alt_run_isSome _ _ _ _).2 (Or.inl ((key _ _ _).2 rfl))))⟩
      · exact ⟨"jpg".toList, h, (alt_run_isSome _ _ _ _).2
          (Or.inr ((alt_run_isSome _ _ _ _).2 (Or.inr ((key _ _ _).2 rfl))))⟩
  · simp [hi]

/-- Past index 0 the search for the filter pattern finds nothing. -/
theorem execFrom_mime_pos (s : Str) (i : Nat) (hi : i ≠ 0) :
    execFrom mimePattern i s = none := by
  have hnone : ∀ (j : Nat) (u : Str), j ≠ 0 → mimePattern.run ⟨j, u⟩ some = none := by
    intro j u hj
    have := mimePattern_run_isSome j u
    cases h : mimePattern.run ⟨j, u⟩ some with
    | none => rfl
    | some z => rw [h] at this; exact absurd (this.1 rfl).1 hj
  induction s generalizing i with
  | nil => simp only [execFrom, hnone i [] hi]
  | cons c t ih => simp only [execFrom, hnone i (c :: t) hi]; exact ih (i + 1) (by omega)

/-- The filter pattern matches a text exactly when it is one of the three. -/
theorem strMatch_mime_isSome (m : Str) :
    (strMatch m mimePattern).isSome = true ↔
      (m = "image/jpeg".toList ∨ m = "image/png".toList ∨ m = "image/jpg".toList) := by
  have h0 := mimePattern_run_isSome 0 m
  simp only [true_and] at h0
  rw [← h0]
  unfold strMatch
  cases m with
  | nil =>
    simp only [execFrom]
    cases mimePattern.run ⟨0, []⟩ some <;> simp
  | cons c t =>
    simp only [execFrom]
    cases mimePattern.run ⟨0, c :: t⟩ some with
    | none => simp [execFrom_mime_pos t 1 (by decide)]
    | some z => simp

/-- The file filter, case by case: accept on the three texts, reject with the
images-only error on every other one. -/
theorem fileFilter_cases (m : Str) :
    ((m = "image/jpeg".toList ∨ m = "image/jpg".toList ∨ m = "image/png".toList) →
      fileFilter m = .accept) ∧
    (¬ (m = "image/jpeg".toList ∨ m = "image/jpg".toList ∨ m = "image/png".toList) →
      fileFilter m = .reject imagesOnly) := by
  have h := strMatch_mime_isSome m
  have hperm : (m = "image/jpeg".toList ∨ m = "image/png".toList ∨ m = "image/jpg".toList) ↔
      (m = "image/jpeg".toList ∨ m = "image/jpg".toList ∨ m = "image/png".toList) := by
    constructor <;> (rintro (h | h | h) <;> simp [h])
  rw [hperm] at h
  unfold fileFilter
  cases hm : strMatch m mimePattern with
  | none =>
    rw [hm] at h
    simp only [Option.isSome_none, Bool.false_eq_true, false_iff] at h
    exact ⟨fun e => absurd e h, fun _ => rfl⟩
  | some z =>
    rw [hm] at h
    simp only [Option.isSome_some, true_iff] at h
    exact ⟨fun _ => rfl, fun e => absurd h e⟩

/-- C8: the file filter accepts a declared MIME type exactly when it is one of
`image/jpeg`, `image/jpg`, `image/png`, character for character, and rejects
every other one with the images-only error. -/
theorem fileFilter_accepts_iff (m : Str) :
    (fileFilter m = .accept ↔
      (m = "image/jpeg".toList ∨ m = "image/jpg".toList ∨ m = "image/png".toList)) ∧
    (¬ (m = "image/jpeg".toList ∨ m = "image/jpg".toList ∨ m = "image/png".toList) →
      fileFilter m = .reject imagesOnly) := by
  refine ⟨⟨fun hacc => ?_, (fileFilter_cases m).1⟩, (fileFilter_cases m).2⟩
  by_contra hn
  rw [(fileFilter_cases m).2 hn] at hacc
  cases hacc

/-! ## The route: rejected uploads -/

/-- The middleware on a part whose reported type the file filter rejects. -/
theorem uploadSingle_rejected (reader : MultipartReader) (filename : Nat → Str → Str) (now : Nat)
    (fs : FS) (part : FilePart)
    (h : ¬ (reader.mimetype part.contentType = "image/jpeg".toList ∨
      reader.mimetype part.contentType = "image/jpg".toList ∨
      reader.mimetype part.contentType = "image/png".toList)) :
    uploadSingle reader filename now fs (some part) =
      if reader.originalname part.filename = [] then .next none fs
      else if part.fieldname = "image".toList then .failed imagesOnly fs
      else .failed "Unexpected field".toList fs := by
  unfold uploadSingle
  by_cases hn : reader.originalname part.filename = []
  · simp only [hn, if_true]
  · by_cases hf : part.fieldname = "image".toList
    · simp only [hn, hf, ne_eq, not_true_eq_false, if_false, if_true,
        (fileFilter_cases (reader.mimetype part.contentType)).2 h]
    · simp only [hn, hf, ne_eq, not_false_eq_true, if_false, if_true]

/-- The outcome of a route on a part whose reported type the file filter
rejects, for any handler that answers a request without a file as the two
handlers do. -/
theorem route_rejected {α : Type} (handler : FS → Option UploadedFile → Outcome α)
    (hnone : ∀ fs, handler fs none = ⟨⟨400, .error pleaseUpload⟩, fs, []⟩)
    (reader : MultipartReader) (filename : Nat → Str → Str) (now : Nat)
    (fs : FS) (part : FilePart)
    (h : ¬ (reader.mimetype part.contentType = "image/jpeg".toList ∨
      reader.mimetype part.contentType = "image/jpg".toList ∨
      reader.mimetype part.contentType = "image/png".toList)) :
    route handler reader filename now fs (some part) =
      if reader.originalname part.filename = [] then ⟨⟨400, .error pleaseUpload⟩, fs, []⟩
      else if part.fieldname = "image".toList then ⟨⟨500, .errorPage imagesOnly⟩, fs, []⟩
      else ⟨⟨500, .errorPage "Unexpected field".toList⟩, fs, []⟩ := by
  unfold route
  rw [uploadSingle_rejected reader filename now fs part h]
  by_cases hn : reader.originalname part.filename = []
  · simp only [hn, if_true, hnone]
  · by_cases hf : part.fieldname = "image".toList
    · simp only [hn, hf, if_false, if_true]
    · simp only [hn, hf, if_false]

/-- C9, counterexample: an upload `notes.txt` declared `text/plain` under the
field `image` is answered with status 500 and the error page of the
framework by both files, not with status 400 and an `error` body. -/
theorem rejected_upload_counterexample :
    (appRoute JSON.parse (fun _ => .error []) plainReader 1700000000000 (fun _ => none)
      (some ⟨"image".toList, "notes.txt".toList, "text/plain".toList, [104, 105]⟩)).response.status
        = 500 ∧
    (controllerRoute JSON.parse (fun _ => .error []) plainReader 1700000000000 (fun _ => none)
      (some ⟨"image".toList, "notes.txt".toList, "text/plain".toList, [104, 105]⟩)).response.status
        = 500 ∧
    (appRoute JSON.parse (fun _ => .error []) plainReader 1700000000000 (fun _ => none)
      (some ⟨"image".toList, "notes.txt".toList, "text/plain".toList, [104, 105]⟩)).response.body
        = .errorPage imagesOnly ∧
    (controllerRoute JSON.parse (fun _ => .error []) plainReader 1700000000000 (fun _ => none)
      (some ⟨"image".toList, "notes.txt".toList, "text/plain".toList, [104, 105]⟩)).response.body
        = .errorPage imagesOnly :=
  ⟨by decide, by decide, rfl, rfl⟩

/-- C9, amended: for every upload whose MIME type as the multipart parser
reports it in `file.mimetype` is none of `image/jpeg`, `image/jpg`,
`image/png`, the file filter rejects that type with the images-only error,
and in both files the route has no effect (no model call) and leaves the
file system unchanged, so no file of that upload is in transient storage.
Its response is: status 500 with the error page of the default error
handler of Express for the images-only error when the part has a file name
and comes under the field `image` (the handler never runs, so its 400 is not
produced); status 500 with the error page for the unexpected-field error of
the middleware when the part comes under another field name (the filter is
not asked); and the 400 of the handler for a missing file when the part has
no file name, which the middleware ignores. -/
theorem rejected_upload {α : Type} (parse : Str → Except Str α) (openai : ModelClient)
    (reader : MultipartReader) (now : Nat) (fs : FS) (part : FilePart)
    (h : ¬ (reader.mimetype part.contentType = "image/jpeg".toList ∨
      reader.mimetype part.contentType = "image/jpg".toList ∨
      reader.mimetype part.contentType = "image/png".toList)) :
    fileFilter (reader.mimetype part.contentType) = .reject imagesOnly ∧
    ∀ outcome : Outcome α,
      (outcome = appRoute parse openai reader now fs (some part) ∨
        outcome = controllerRoute parse openai reader now fs (some part)) →
      outcome.trace = [] ∧ outcome.fs = fs ∧
      outcome.response =
        if reader.originalname part.filename = [] then ⟨400, .error pleaseUpload⟩
        else if part.fieldname = "image".toList then ⟨500, .errorPage imagesOnly⟩
        else ⟨500, .errorPage "Unexpected field".toList⟩ := by
  refine ⟨(fileFilter_cases _).2 h, ?_⟩
  have happ := route_rejected (appHandler parse openai) (fun _ => rfl) reader appFilename
    now fs part h
  have hctl := route_rejected (controllerHandler parse openai) (fun _ => rfl) reader
    (controllerFilename extname) now fs part h
  rintro outcome (rfl | rfl)
  · unfold appRoute
    rw [happ]
    by_cases hn : reader.originalname part.filename = []
    · simp only [hn, if_true, and_self]
    · by_cases hf : part.fieldname = "image".toList
      · simp only [hn, hf, if_false, if_true, and_self]
      · simp only [hn, hf, if_false, and_self]
  · unfold controllerRoute
    rw [hctl]
    by_cases hn : reader.originalname part.filename = []
    · simp only [hn, if_true, and_self]
    · by_cases hf : part.fieldname = "image".toList
      · simp only [hn, hf, if_false, if_true, and_self]
      · simp only [hn, hf, if_false, and_self]

/-- C9, witness: an upload `a.gif` declared `image/gif` under the field
`image`, through `user_controller.js`. -/
theorem rejected_upload_witness :
    ¬ (plainReader.mimetype "image/gif".toList = "image/jpeg".toList ∨
      plainReader.mimetype "image/gif".toList = "image/jpg".toList ∨
      plainReader.mimetype "image/gif".toList = "image/png".toList) ∧
    (controllerRoute JSON.parse (fun _ => .error []) plainReader 1700000000000 (fun _ => none)
      (some ⟨"image".toList, "a.gif".toList, "image/gif".toList, [71, 73, 70]⟩)).trace = [] ∧
    (controllerRoute JSON.parse (fun _ => .error []) plainReader 1700000000000 (fun _ => none)
      (some ⟨"image".toList, "a.gif".toList, "image/gif".toList, [71, 73, 70]⟩)).response
      = ⟨500, .errorPage imagesOnly⟩ :=
  ⟨by decide,
    ((rejected_upload JSON.parse (fun _ => .error []) plainReader 1700000000000 (fun _ => none)
      ⟨"image".toList, "a.gif".toList, "image/gif".toList, [71, 73, 70]⟩ (by decide)).2 _
      (Or.inr rfl)).1,
    ((rejected_upload JSON.parse (fun _ => .error []) plainReader 1700000000000 (fun _ => none)
      ⟨"image".toList, "a.gif".toList, "image/gif".toList, [71, 73, 70]⟩ (by decide)).2 _
      (Or.inr rfl)).2.2⟩

/-! ## File names -/

theorem digitChar_value (d : Nat) (h : d < 10) : (Nat.digitChar d).toNat - 48 = d := by
  interval_cases d <;> rfl

theorem digitChar_isDigit (d : Nat) (h : d < 10) : (Nat.digitChar d).isDigit = true := by
  interval_cases d <;> rfl

theorem toDigitsCore_append (fuel n : Nat) (ds : Str) :
    Nat.toDigitsCore 10 fuel n ds = Nat.toDigitsCore 10 fuel n [] ++ ds := by
  induction fuel generalizing n ds with
  | zero => simp [Nat.toDigitsCore]
  | succ f ih =>
    simp only [Nat.toDigitsCore]
    split
    · simp
    · rw [ih (n / 10) (Nat.digitChar (n % 10) :: ds), ih (n / 10) [Nat.digitChar (n % 10)]]
      simp

theorem digitsValue_toDigitsCore (fuel n : Nat) (h : n < fuel) :
    digitsValue (Nat.toDigitsCore 10 fuel n []) = n := by
  induction fuel generalizing n with
  | zero => omega
  | succ f ih =>
    simp only [Nat.toDigitsCore]
    split
    · rename_i h0
      simp only [digitsValue, List.foldl, Nat.mul_zero, Nat.zero_add]
      rw [digitChar_value _ (Nat.mod_lt _ (by decide))]
      omega
    · rename_i h0
      rw [toDigitsCore_append]
      have hlt : n / 10 < f := by omega
      have := ih (n / 10) hlt
      simp only [digitsValue, List.foldl_append, List.foldl] at this ⊢
      rw [this, digitChar_value _ (Nat.mod_lt _ (by decide))]
      omega

theorem toDigitsCore_isDigit (fuel n : Nat) (c : Char)
    (h : c ∈ Nat.toDigitsCore 10 fuel n []) : c.isDigit = true := by
  induction fuel generalizing n with
  | zero => simp [Nat.toDigitsCore] at h
  | succ f ih =>
    simp only [Nat.toDigitsCore] at h
    split at h
    · simp only [List.mem_singleton] at h
      rw [h]; exact digitChar_isDigit _ (Nat.mod_lt _ (by decide))
    · rw [toDigitsCore_append] at h
      rcases List.mem_append.1 h with h | h
      · exact ih _ h
      · simp only [List.mem_singleton] at h
        rw [h]; exact digitChar_isDigit _ (Nat.mod_lt _ (by decide))

/-- The decimal numeral determines the number. -/
theorem decimal_injective (a b : Nat) (h : decimal a = decimal b) : a = b := by
  have ha := digitsValue_toDigitsCore (a + 1) a (by omega)
  have hb := digitsValue_toDigitsCore (b + 1) b (by omega)
  unfold decimal Nat.toDigits at h
  rw [h] at ha
  omega

/-- A decimal numeral consists of digits. -/
theorem decimal_isDigit (n : Nat) (c : Char) (h : c ∈ decimal n) : c.isDigit = true :=
  toDigitsCore_isDigit _ _ c h

/-- Two texts that agree and are split at a separator absent from both heads
have equal heads. -/
theorem head_eq_of_split (sep : Char) (l1 l2 r1 r2 : Str) (h1 : sep ∉ l1) (h2 : sep ∉ l2)
    (h : l1 ++ sep :: r1 = l2 ++ sep :: r2) : l1 = l2 := by
  induction l1 generalizing l2 with
  | nil =>
    cases l2 with
    | nil => rfl
    | cons c t =>
      simp only [List.nil_append, List.cons_append, List.cons.injEq] at h
      exact absurd (by simp [h.1]) h2
  | cons c t ih =>
    cases l2 with
    | nil =>
      simp only [List.nil_append, List.cons_append, List.cons.injEq] at h
      exact absurd (by simp [h.1]) h1
    | cons d u =>
      simp only [List.cons_append, List.cons.injEq] at h
      rw [h.1, ih u (fun e => h1 (by simp [e])) (fun e => h2 (by simp [e])) h.2]

/-- The scan of `path.extname` keeps `startDot` at an index holding a dot,
below `end`. -/
theorem extnameScan_inv (path : Str) (n : Nat) (st : ExtScan)
    (h1 : ∀ e, st.end1 = some e → n < e)
    (h2 : ∀ d, st.startDot = some d → path[d]? = some '.' ∧ ∃ e, st.end1 = some e ∧ d < e) :
    ∀ d, (extnameScan path n st).startDot = some d →
      path[d]? = some '.' ∧ ∃ e, (extnameScan path n st).end1 = some e ∧ d < e := by
  induction n generalizing st with
  | zero => exact h2
  | succ i ih =>
    obtain ⟨sd, sp, en, ms, pd⟩ := st
    simp only at h1 h2
    unfold extnameScan
    by_cases hs : path[i]? = some '/'
    · simp only [hs, if_true]
      by_cases hm : ms = true
      · simp only [hm, Bool.not_true, Bool.false_eq_true, if_false]
        exact ih _ (fun e he => by have := h1 e he; omega) h2
      · simp only [hm, Bool.not_false, if_true]
        exact h2
    · simp only [hs, if_false]
      cases en with
      | none =>
        cases sd with
        | some d0 => exact absurd (h2 d0 rfl).2 (by simp)
        | none =>
          by_cases hd : path[i]? = some '.'
          · simp only [hd, if_true, ne_eq, not_true_eq_false, if_false]
            refine ih _ (fun e he => ?_) (fun d hd0 => ?_)
            · simp only [Option.some.injEq] at he; omega
            · simp only [Option.some.injEq] at hd0
              subst hd0
              exact ⟨hd, i + 1, rfl, by omega⟩
          · simp only [hd, if_true, ne_eq, not_true_eq_false, if_false]
            refine ih _ (fun e he => ?_) (fun d hd0 => ?_)
            · simp only [Option.some.injEq] at he; omega
            · simp at hd0
      | some e0 =>
        have he0 := h1 e0 rfl
        cases sd with
        | none =>
          by_cases hd : path[i]? = some '.'
          · simp only [hd, if_true, ne_eq, not_true_eq_false, if_false, reduceCtorEq]
            refine ih _ (fun e he => ?_) (fun d hd0 => ?_)
            · simp only [Option.some.injEq] at he; omega
            · simp only [Option.some.injEq] at hd0
              subst hd0
              exact ⟨hd, e0, rfl, by omega⟩
          · simp only [hd, if_true, ne_eq, not_true_eq_false, if_false, reduceCtorEq]
            refine ih _ (fun e he => ?_) (fun d hd0 => ?_)
            · simp only [Option.some.injEq] at he; omega
            · simp at hd0
        | some d0 =>
          by_cases hd : path[i]? = some '.'
          · by_cases hp : pd = 1
            · simp only [hd, hp, if_true, ne_eq, not_true_eq_false, if_false, reduceCtorEq]
              refine ih _ (fun e he => ?_) h2
              simp only [Option.some.injEq] at he; omega
            · simp only [hd, hp, if_true, ne_eq, not_true_eq_false, not_false_eq_true, if_false,
                reduceCtorEq]
              refine ih _ (fun e he => ?_) h2
              simp only [Option.some.injEq] at he; omega
          · simp only [hd, if_true, ne_eq, not_true_eq_false, not_false_eq_true, if_false,
              reduceCtorEq]
            refine ih _ (fun e he => ?_) h2
            simp only [Option.some.injEq] at he; omega

/-- What `path.extname` returns is empty or starts with a dot. -/
theorem extname_empty_or_dot (path : Str) :
    extname path = [] ∨ ∃ r, extname path = '.' :: r := by
  have hinv := extnameScan_inv path path.length ⟨none, 0, none, true, 0⟩
    (fun e he => by simp at he) (fun d hd => by simp at hd)
  unfold extname
  simp only
  generalize extnameScan path path.length ⟨none, 0, none, true, 0⟩ = st at hinv
  cases hsd : st.startDot with
  | none => exact Or.inl rfl
  | some d =>
    obtain ⟨hdot, e, he, hde⟩ := hinv d hsd
    simp only [he]
    split
    · exact Or.inl rfl
    · right
      obtain ⟨hl, hg⟩ := List.getElem?_eq_some.1 hdot
      have hd2 : d < (path.take e).length := by simp; omega
      refine ⟨(path.take e).drop (d + 1), ?_⟩
      rw [List.drop_eq_getElem_cons hd2]
      congr 1
      rw [List.getElem_take]
      exact hg

/-- C10: when the two timestamps differ, the generated file names differ,
whatever the two original names are: in `app.js` (decimal timestamp, `-`,
original name) and in `user_controller.js` (decimal timestamp, then the
extension, which is empty or starts with a dot). -/
theorem filenames_differ (pathExtname : Str → Str)
    (hext : ∀ s, pathExtname s = [] ∨ ∃ r, pathExtname s = '.' :: r)
    (t1 t2 : Nat) (name1 name2 : Str) (h : t1 ≠ t2) :
    appFilename t1 name1 ≠ appFilename t2 name2 ∧
    controllerFilename pathExtname t1 name1 ≠ controllerFilename pathExtname t2 name2 := by
  have hminus : ∀ n, '-' ∉ decimal n := fun n hm => by
    have := decimal_isDigit n _ hm
    exact absurd this (by decide)
  have hdot : ∀ n, '.' ∉ decimal n := fun n hm => by
    have := decimal_isDigit n _ hm
    exact absurd this (by decide)
  constructor
  · intro e
    exact h (decimal_injective _ _ (head_eq_of_split '-' _ _ _ _ (hminus t1) (hminus t2) e))
  · intro e
    unfold controllerFilename at e
    rcases hext name1 with h1 | ⟨r1, h1⟩ <;> rcases hext name2 with h2 | ⟨r2, h2⟩
    · rw [h1, h2, List.append_nil, List.append_nil] at e
      exact h (decimal_injective _ _ e)
    · rw [h1, h2, List.append_nil] at e
      exact hdot t1 (by rw [e]; simp)
    · rw [h1, h2, List.append_nil] at e
      exact hdot t2 (by rw [← e]; simp)
    · rw [h1, h2] at e
      exact h (decimal_injective _ _ (head_eq_of_split '.' _ _ _ _ (hdot t1) (hdot t2) e))

/-- C10, witness: the same image uploaded at two consecutive milliseconds,
with the extension `path.extname` computes. -/
theorem filenames_differ_witness :
    (1700000000000 : Nat) ≠ 1700000000001 ∧
    appFilename 1700000000000 "crash.png".toList = "1700000000000-crash.png".toList ∧
    controllerFilename extname 1700000000001 "crash.png".toList = "1700000000001.png".toList ∧
    appFilename 1700000000000 "crash.png".toList ≠ appFilename 1700000000001 "crash.png".toList ∧
    controllerFilename extname 1700000000000 "crash.png".toList
      ≠ controllerFilename extname 1700000000001 "crash.png".toList :=
  ⟨by decide, by decide, by decide,
    filenames_differ extname extname_empty_or_dot 1700000000000 1700000000001
      "crash.png".toList "crash.png".toList (by decide)⟩

end CarAI
